import Mathlib

/-!
Verification development for the alert persistence and retention core
(`pkg/database/alerts.go`): bulk alert ingestion (`CreateAlertBulk`), the
filter-to-predicate compiler (`BuildAlertRequestFromFilter`), query/delete
(`QueryAlertWithFilter`, `DeleteAlertGraph`, `DeleteAlertWithFilter`) and
the retention engine (`FlushAlerts`).

Shallow embedding conventions:
- instants and durations are `Int` nanoseconds since the Unix epoch
  (Go `time.Time` / `time.Duration`);
- the entity store is a pure `DB` value holding the four tables; storage
  operations themselves never fail in the model (the `BulkError` /
  `DeleteFail` branches of the source are unreachable here and the claims
  under verification are all conditioned on storage succeeding);
- Go standard-library behaviour that the source calls is embedded as
  executable Lean functions (`time.Parse`/`Format` for RFC3339,
  `time.ParseDuration`, `strconv.ParseBool`, `strconv.Itoa`);
- error values model the source's taxonomy constants; the formatted
  message strings attached by `errors.Wrap`/`fmt.Sprintf` are elided;
- a Go runtime panic (indexing `value[0]` on an empty slice) is modelled
  as an explicit `panicked` outcome, distinct from returned errors.
-/

namespace AlertsDB

/-! ## Go standard library models -/

/-- Value of a run of decimal digit characters. -/
def natOfDigits (cs : List Char) : Nat :=
  cs.foldl (fun n c => n * 10 + (c.toNat - 48)) 0

/-- Parse a non-empty all-digit run, as used for IP octets and mask widths. -/
def decDigits? (cs : List Char) : Option Nat :=
  if cs ≠ [] ∧ cs.all Char.isDigit then some (natOfDigits cs) else none

/-- Go `time.Time` zero value (January 1, year 1 UTC) in Unix nanoseconds;
`time.Time.IsZero` compares against it. -/
def goZeroTimeNs : Int := -62135596800000000000

/-- Days since the Unix epoch for a civil date (standard civil-from-days
inverse; `y` may be any year, `m` in 1..12, `d` in 1..31). -/
def daysFromCivil (y : Int) (m d : Nat) : Int :=
  let y' : Int := if m ≤ 2 then y - 1 else y
  let era : Int := y'.ediv 400
  let yoe : Nat := (y' - era * 400).toNat
  let doy : Nat := (153 * (if m > 2 then m - 3 else m + 9) + 2) / 5 + d - 1
  let doe : Nat := yoe * 365 + yoe / 4 - yoe / 100 + doy
  era * 146097 + (doe : Int) - 719468

/-- Civil date from days since the Unix epoch. -/
def civilFromDays (z : Int) : Int × Nat × Nat :=
  let z' := z + 719468
  let era : Int := z'.ediv 146097
  let doe : Nat := (z' - era * 146097).toNat
  let yoe : Nat := (doe - doe / 1460 + doe / 36524 - doe / 146096) / 365
  let y : Int := (yoe : Int) + era * 400
  let doy : Nat := doe - (365 * yoe + yoe / 4 - yoe / 100)
  let mp : Nat := (5 * doy + 2) / 153
  let d : Nat := doy - (153 * mp + 2) / 5 + 1
  let m : Nat := if mp < 10 then mp + 3 else mp - 9
  ((if m ≤ 2 then y + 1 else y), m, d)

/-- Model of Go `time.Parse(time.RFC3339, s)`, restricted to the
`YYYY-MM-DDTHH:MM:SSZ` shape the system exchanges (numeric UTC offsets and
fractional seconds elided; per-month day validation coarsened to 1..31).
Returns Unix nanoseconds. -/
def parseRFC3339 (s : String) : Except Unit Int :=
  match s.toList with
  | [y1, y2, y3, y4, '-', m1, m2, '-', d1, d2, 'T',
     h1, h2, ':', i1, i2, ':', s1, s2, 'Z'] =>
    match decDigits? [y1, y2, y3, y4], decDigits? [m1, m2], decDigits? [d1, d2],
          decDigits? [h1, h2], decDigits? [i1, i2], decDigits? [s1, s2] with
    | some y, some mo, some da, some ho, some mi, some se =>
      if 1 ≤ mo ∧ mo ≤ 12 ∧ 1 ≤ da ∧ da ≤ 31 ∧ ho ≤ 23 ∧ mi ≤ 59 ∧ se ≤ 59 then
        .ok ((daysFromCivil (y : Int) mo da * 86400
              + ((ho * 3600 + mi * 60 + se : Nat) : Int)) * 1000000000)
      else .error ()
    | _, _, _, _, _, _ => .error ()
  | _ => .error ()

/-- Left-pad a numeral with zeros. -/
def padNum (width : Nat) (n : Nat) : String :=
  let s := toString n
  String.mk (List.replicate (width - s.length) '0') ++ s

/-- Model of Go `t.Format(time.RFC3339)` for an instant in Unix
nanoseconds (rendered in UTC with a `Z` suffix). -/
def formatRFC3339 (t : Int) : String :=
  let secs := t.ediv 1000000000
  let days := secs.ediv 86400
  let sod : Nat := (secs - days * 86400).toNat
  let c := civilFromDays days
  padNum 4 c.1.toNat ++ "-" ++ padNum 2 c.2.1 ++ "-" ++ padNum 2 c.2.2 ++ "T"
    ++ padNum 2 (sod / 3600) ++ ":" ++ padNum 2 (sod % 3600 / 60) ++ ":"
    ++ padNum 2 (sod % 60) ++ "Z"

/-- Go `time.ParseDuration` unit table, in nanoseconds. -/
def durUnitNs : List Char → Option Int
  | ['n', 's'] => some 1
  | ['u', 's'] => some 1000
  | ['µ', 's'] => some 1000
  | ['μ', 's'] => some 1000
  | ['m', 's'] => some 1000000
  | ['s'] => some 1000000000
  | ['m'] => some 60000000000
  | ['h'] => some 3600000000000
  | _ => none

/-- One-or-more components of a Go duration literal: each component is
digits, an optional fraction, and a mandatory known unit.  `fuel` bounds
the recursion (each step consumes at least one character). -/
def parseDurationLoop : Nat → List Char → Option Int
  | 0, _ => none
  | _, [] => some 0
  | fuel + 1, cs =>
    let ds := cs.takeWhile Char.isDigit
    let r1 := cs.dropWhile Char.isDigit
    let fr : List Char × List Char :=
      match r1 with
      | '.' :: r => (r.takeWhile Char.isDigit, r.dropWhile Char.isDigit)
      | _ => ([], r1)
    if ds = [] ∧ fr.1 = [] then none
    else
      let notUnitEnd : Char → Bool := fun c => ¬ c.isDigit ∧ c ≠ '.'
      let us := fr.2.takeWhile notUnitEnd
      let r3 := fr.2.dropWhile notUnitEnd
      match durUnitNs us with
      | none => none
      | some mult =>
        let v : Int := (natOfDigits ds : Int) * mult
          + ((natOfDigits fr.1 : Int) * mult) / ((10 : Int) ^ fr.1.length)
        match parseDurationLoop fuel r3 with
        | none => none
        | some rest => some (v + rest)

/-- Model of Go `time.ParseDuration` (overflow checks elided); result in
nanoseconds. -/
def ParseDuration (s : String) : Except Unit Int :=
  let cs0 := s.toList
  let sgn : Bool × List Char :=
    match cs0 with
    | '-' :: r => (true, r)
    | '+' :: r => (false, r)
    | r => (false, r)
  let cs := sgn.2
  if cs = ['0'] then .ok 0
  else if cs = [] then .error ()
  else
    match parseDurationLoop (cs.length + 1) cs with
    | some n => .ok (if sgn.1 then -n else n)
    | none => .error ()

/-- Model of Go `strconv.ParseBool`. -/
def parseBool (v : String) : Option Bool :=
  if v = "1" ∨ v = "t" ∨ v = "T" ∨ v = "true" ∨ v = "TRUE" ∨ v = "True" then
    some true
  else if v = "0" ∨ v = "f" ∨ v = "F" ∨ v = "false" ∨ v = "FALSE" ∨ v = "False" then
    some false
  else none

/-- Models `json.Marshal` of an event's key/value metadata slice: a
canonical injective text encoding (exact JSON syntax elided; marshalling
of this shape never fails, so the `MarshalFail` branch is unreachable). -/
def serializeMeta (l : List (String × String)) : String :=
  (l.map (fun kv => "(" ++ kv.1 ++ ":" ++ kv.2 ++ ")")).foldl (· ++ ·) ""

/-! ## IP Range Codec (modelled from the spec)

`IsIpv4` and `GetIpsFromIpRange` live outside the provided source file;
they are modelled from the spec (§4.1): "converts an IP or CIDR string
into an inclusive numeric [start,end] bound pair for range predicates",
failing on unparsable input, with a bare IP treated as a /32. -/

/-- Split a character list on a separator (semantics of `String.split`
on a single separator character). -/
def splitChar (sep : Char) : List Char → List (List Char)
  | [] => [[]]
  | c :: rest =>
    let r := splitChar sep rest
    if c = sep then [] :: r
    else
      match r with
      | [] => [[c]]
      | h :: t => (c :: h) :: t

/-- One dotted-quad component: 1..3 decimal digits, value ≤ 255. -/
def octet? (cs : List Char) : Option Nat :=
  match decDigits? cs with
  | some n => if cs.length ≤ 3 ∧ n ≤ 255 then some n else none
  | none => none

/-- Dotted-quad IPv4 text to its 32-bit numeric value. -/
def parseIPv4 (s : String) : Option Nat :=
  match splitChar '.' s.toList with
  | [a, b, c, d] =>
    match octet? a, octet? b, octet? c, octet? d with
    | some oa, some ob, some oc, some od =>
      some (((oa * 256 + ob) * 256 + oc) * 256 + od)
    | _, _, _, _ => none
  | _ => none

/-- Modelled from the spec: `IsIpv4` (not under src/) — IPv4 host text
validation used by the `ip` filter branch. -/
def IsIpv4 (s : String) : Bool :=
  (parseIPv4 s).isSome

/-- Modelled from the spec: `GetIpsFromIpRange` (not under src/) — CIDR
text to the inclusive numeric [start, end] pair of the network block. -/
def GetIpsFromIpRange (s : String) : Except Unit (Int × Int) :=
  match splitChar '/' s.toList with
  | [ipStr, maskStr] =>
    match parseIPv4 (String.mk ipStr), decDigits? maskStr with
    | some ip, some m =>
      if m ≤ 32 then
        let block := 2 ^ (32 - m)
        let start := ip / block * block
        .ok ((start : Int), ((start + block - 1 : Nat) : Int))
      else .error ()
    | _, _ => .error ()
  | _ => .error ()

/-! ## Entity model

Persisted rows (the `ent` entities).  Child rows hold their owning
alert's identifier in `ownerId` (`none` while detached); `AlertRow` holds
the weak owner reference to the reporting machine.  The two `float32`
source fields (latitude/longitude) are elided: no claim and no control
flow depends on them. -/

/-- `ent.Alert` row. -/
structure AlertRow where
  id : Nat
  createdAt : Int
  scenario : String
  message : String
  eventsCount : Int
  startedAt : Int
  stoppedAt : Int
  sourceScope : String
  sourceValue : String
  sourceIp : String
  sourceRange : String
  sourceAsNumber : String
  sourceAsName : String
  sourceCountry : String
  capacity : Int
  leakSpeed : String
  simulated : Bool
  scenarioVersion : String
  scenarioHash : String
  ownerId : Option Nat
deriving DecidableEq, Repr

/-- `ent.Decision` row (`dtype` is the source's `Type` field,
`untilTime` its `Until`). -/
structure DecisionRow where
  id : Nat
  untilTime : Int
  scenario : String
  dtype : String
  startIP : Int
  endIP : Int
  value : String
  scope : String
  origin : String
  simulated : Bool
  ownerId : Option Nat
deriving DecidableEq, Repr

/-- `ent.Event` row. -/
structure EventRow where
  id : Nat
  time : Int
  serialized : String
  ownerId : Option Nat
deriving DecidableEq, Repr

/-- `ent.Meta` row. -/
structure MetaRow where
  id : Nat
  key : String
  value : String
  ownerId : Option Nat
deriving DecidableEq, Repr

/-- The entity store: four tables plus their auto-increment counters. -/
structure DB where
  alerts : List AlertRow
  decisions : List DecisionRow
  events : List EventRow
  metas : List MetaRow
  nextAlertId : Nat
  nextDecisionId : Nat
  nextEventId : Nat
  nextMetaId : Nat
deriving DecidableEq, Repr

/-- The empty store (counters start at 1, like SQL autoincrement). -/
def DB.empty : DB := ⟨[], [], [], [], 1, 1, 1, 1⟩

/-! ## Submission shapes (the `models.*` wire types)

Pointer fields of the wire structs are modelled as plain values: every
claim under verification concerns submissions whose required fields are
present (nil-pointer dereference is outside the embedded state space). -/

/-- `models.Decision` as submitted. -/
structure DecisionIn where
  duration : String
  scenario : String
  dtype : String
  startIP : Int
  endIP : Int
  value : String
  scope : String
  origin : String
deriving DecidableEq, Repr

/-- `models.Event` as submitted. -/
structure EventIn where
  timestamp : String
  meta : List (String × String)
deriving DecidableEq, Repr

/-- `models.Source` as submitted (float fields elided). -/
structure SourceIn where
  scope : String
  value : String
  ip : String
  range : String
  asNumber : String
  asName : String
  cn : String
deriving DecidableEq, Repr

/-- `models.Alert` as submitted. -/
structure AlertIn where
  scenario : String
  message : String
  eventsCount : Int
  startAt : String
  stopAt : String
  source : SourceIn
  capacity : Int
  leakspeed : String
  simulated : Bool
  scenarioVersion : String
  scenarioHash : String
  events : List EventIn
  meta : List (String × String)
  decisions : List DecisionIn
deriving DecidableEq, Repr

/-- Error taxonomy of the source (`types.go` constants plus the two ad-hoc
errors built inline in the filter compiler); message payloads elided. -/
inductive DBErr
  | parseTimeFail
  | parseDurationFail
  | parseType
  | marshalFail
  | bulkError
  | queryFail
  | deleteFail
  | invalidIPOrRange
  | invalidFilter
  | durationWrapped
  | emptyTime
deriving DecidableEq, Repr

/-- Decidable equality for `Except` results (used to evaluate the model
on concrete inputs). -/
instance {ε α : Type} [DecidableEq ε] [DecidableEq α] : DecidableEq (Except ε α) := fun x y =>
  match x, y with
  | .ok a, .ok b => if h : a = b then .isTrue (by rw [h]) else .isFalse (by simp [h])
  | .error a, .error b => if h : a = b then .isTrue (by rw [h]) else .isFalse (by simp [h])
  | .ok _, .error _ => .isFalse (by simp)
  | .error _, .ok _ => .isFalse (by simp)

/-- Outcome of `c.QueryMachineByID(machineId)`: found, the distinguished
`UserNotExists` cause, or any other lookup error. -/
inductive MachineLookup
  | found (machineId : Nat)
  | notFound
  | otherErr
deriving DecidableEq, Repr

/-! ## CreateAlertBulk -/

/-- Append freshly-created detached event rows (`Event.CreateBulk`);
each pair is (parsed timestamp, serialized metadata). -/
def createEventRows (db : DB) (rows : List (Int × String)) : DB × List Nat :=
  let ids := List.range' db.nextEventId rows.length
  ({ db with
      events := db.events ++ (rows.zip ids).map (fun p => ⟨p.2, p.1.1, p.1.2, none⟩),
      nextEventId := db.nextEventId + rows.length }, ids)

/-- Append freshly-created detached meta rows (`Meta.CreateBulk`). -/
def createMetaRows (db : DB) (l : List (String × String)) : DB × List Nat :=
  let ids := List.range' db.nextMetaId l.length
  ({ db with
      metas := db.metas ++ (l.zip ids).map (fun p => ⟨p.2, p.1.1, p.1.2, none⟩),
      nextMetaId := db.nextMetaId + l.length }, ids)

/-- Append freshly-created detached decision rows (`Decision.CreateBulk`);
each pair is (computed `until`, submitted decision); `simulated` is copied
from the parent submission. -/
def createDecisionRows (db : DB) (simulated : Bool) (l : List (Int × DecisionIn)) :
    DB × List Nat :=
  let ids := List.range' db.nextDecisionId l.length
  ({ db with
      decisions := db.decisions ++ (l.zip ids).map (fun p =>
        ⟨p.2, p.1.1, p.1.2.scenario, p.1.2.dtype, p.1.2.startIP, p.1.2.endIP,
         p.1.2.value, p.1.2.scope, p.1.2.origin, simulated, none⟩),
      nextDecisionId := db.nextDecisionId + l.length }, ids)

/-- Parse every event of a submission (timestamp else `ParseTimeFail`)
into (time, serialized) creation pairs, failing before any row is made. -/
def parseEventRows : List EventIn → Except DBErr (List (Int × String))
  | [] => .ok []
  | e :: rest =>
    match parseRFC3339 e.timestamp with
    | .error _ => .error .parseTimeFail
    | .ok ts =>
      match parseEventRows rest with
      | .error er => .error er
      | .ok tl => .ok ((ts, serializeMeta e.meta) :: tl)

/-- Parse every decision duration (else `ParseDurationFail`), computing
`until = now + duration`. -/
def parseDecisionUntils (now : Int) : List DecisionIn → Except DBErr (List (Int × DecisionIn))
  | [] => .ok []
  | d :: rest =>
    match ParseDuration d.duration with
    | .error _ => .error .parseDurationFail
    | .ok dur =>
      match parseDecisionUntils now rest with
      | .error er => .error er
      | .ok tl => .ok ((now + dur, d) :: tl)

/-- An `ent.AlertCreate` builder waiting in the batch buffer: the alert's
field values plus the identifiers of the child rows it will attach
(`AddDecisions/AddEvents/AddMetas`) and the resolved owner. -/
structure PendingAlert where
  scenario : String
  message : String
  eventsCount : Int
  startedAt : Int
  stoppedAt : Int
  sourceScope : String
  sourceValue : String
  sourceIp : String
  sourceRange : String
  sourceAsNumber : String
  sourceAsName : String
  sourceCountry : String
  capacity : Int
  leakSpeed : String
  simulated : Bool
  scenarioVersion : String
  scenarioHash : String
  decIds : List Nat
  evIds : List Nat
  metaIds : List Nat
  owner : Option Nat
deriving DecidableEq, Repr

/-- The alert row a pending builder produces (`createdAt` defaults to the
store's clock at persist time). -/
def mkAlertRow (id : Nat) (createdAt : Int) (p : PendingAlert) : AlertRow :=
  ⟨id, createdAt, p.scenario, p.message, p.eventsCount, p.startedAt, p.stoppedAt,
   p.sourceScope, p.sourceValue, p.sourceIp, p.sourceRange, p.sourceAsNumber,
   p.sourceAsName, p.sourceCountry, p.capacity, p.leakSpeed, p.simulated,
   p.scenarioVersion, p.scenarioHash, p.owner⟩

/-- Attaching a child edge re-points the child row's owner column to the
given alert (last attachment wins, as in the underlying store). -/
def attachChildren (db : DB) (aid : Nat) (p : PendingAlert) : DB :=
  { db with
      decisions := db.decisions.map (fun d =>
        if d.id ∈ p.decIds then { d with ownerId := some aid } else d),
      events := db.events.map (fun e =>
        if e.id ∈ p.evIds then { e with ownerId := some aid } else e),
      metas := db.metas.map (fun m =>
        if m.id ∈ p.metaIds then { m with ownerId := some aid } else m) }

/-- `Alert.CreateBulk(bulk...).Save`: assign identifiers in buffer order,
insert the rows, then apply each builder's child attachments in order.
Returns the new store and `strconv.Itoa` of each new identifier. -/
def flushBatch (db : DB) (now : Int) (bulk : List PendingAlert) : DB × List String :=
  let ids := List.range' db.nextAlertId bulk.length
  let db1 := { db with
    alerts := db.alerts ++ (bulk.zip ids).map (fun p => mkAlertRow p.2 now p.1),
    nextAlertId := db.nextAlertId + bulk.length }
  ((bulk.zip ids).foldl (fun d p => attachChildren d p.2 p.1) db1,
   ids.map (fun i => toString i))

/-- Owner reference resolved from the machine lookup (`nil` on the
tolerated `UserNotExists` cause). -/
def ownerOf : MachineLookup → Option Nat
  | .found m => some m
  | _ => none

/-- Event sub-step of one loop iteration: only a non-empty event list is
parsed and persisted; an empty one keeps the previous iteration's ids
(the stale-slice behaviour of the source). -/
def stepEvents (db : DB) (item : AlertIn) (evs : List Nat) :
    Except DBErr (DB × List Nat) :=
  if item.events.isEmpty then .ok (db, evs)
  else (parseEventRows item.events).map (fun rows => createEventRows db rows)

/-- Meta sub-step (cannot fail). -/
def stepMetas (db : DB) (item : AlertIn) (mets : List Nat) : DB × List Nat :=
  if item.meta.isEmpty then (db, mets) else createMetaRows db item.meta

/-- Decision sub-step. -/
def stepDecisions (now : Int) (db : DB) (item : AlertIn) (decs : List Nat) :
    Except DBErr (DB × List Nat) :=
  if item.decisions.isEmpty then .ok (db, decs)
  else (parseDecisionUntils now item.decisions).map
    (fun rows => createDecisionRows db item.simulated rows)

/-- The body of one `CreateAlertBulk` loop iteration after machine
resolution: instant parsing and child-row creation, producing the pending
alert builder.  `decs`, `evs`, `mets` are the child-id slices declared
OUTSIDE the source loop (lines 20-22): a submission with no children of a
kind keeps the previous iteration's identifiers, exactly as the source
does. -/
def processItemBody (owner : Option Nat) (now : Int) (db : DB) (item : AlertIn)
    (decs evs mets : List Nat) :
    Except DBErr (DB × PendingAlert × List Nat × List Nat × List Nat) :=
  match parseRFC3339 item.startAt with
  | .error _ => .error .parseTimeFail
  | .ok startAtTime =>
    match parseRFC3339 item.stopAt with
    | .error _ => .error .parseTimeFail
    | .ok stopAtTime =>
      match stepEvents db item evs with
      | .error e => .error e
      | .ok (db1, evs1) =>
        match stepDecisions now (stepMetas db1 item mets).1 item decs with
        | .error e => .error e
        | .ok (db2, decs1) =>
          .ok (db2,
            ⟨item.scenario, item.message, item.eventsCount, startAtTime, stopAtTime,
             item.source.scope, item.source.value, item.source.ip, item.source.range,
             item.source.asNumber, item.source.asName, item.source.cn,
             item.capacity, item.leakspeed, item.simulated,
             item.scenarioVersion, item.scenarioHash,
             decs1, evs1, (stepMetas db1 item mets).2, owner⟩,
            decs1, evs1, (stepMetas db1 item mets).2)

/-- One iteration of the `CreateAlertBulk` loop body up to the buffer
append: machine resolution first (any cause other than `UserNotExists`
aborts the whole call with `QueryFail`), then the parsing/child-creation
body. -/
def processItem (lookup : MachineLookup) (now : Int) (db : DB) (item : AlertIn)
    (decs evs mets : List Nat) :
    Except DBErr (DB × PendingAlert × List Nat × List Nat × List Nat) :=
  match lookup with
  | .otherErr => .error .queryFail
  | lk => processItemBody (ownerOf lk) now db item decs evs mets

/-- The `CreateAlertBulk` loop over the submission list: buffer the built
alert, flush the buffer as one bulk persist when it reaches the batch
size of 20, and always flush the (possibly empty) remainder after the
loop; identifiers accumulate in `ret` in persist order. -/
def CreateAlertBulkLoop (lookup : MachineLookup) (now : Int) :
    List AlertIn → DB → List PendingAlert → List Nat → List Nat → List Nat →
    List String → Except DBErr (List String × DB)
  | [], db, bulk, _, _, _, ret =>
    let fb := flushBatch db now bulk
    .ok (ret ++ fb.2, fb.1)
  | item :: rest, db, bulk, decs, evs, mets, ret =>
    match processItem lookup now db item decs evs mets with
    | .error e => .error e
    | .ok (db1, p, decs1, evs1, mets1) =>
      let bulk1 := bulk ++ [p]
      if bulk1.length = 20 then
        let fb := flushBatch db1 now bulk1
        CreateAlertBulkLoop lookup now rest fb.1 [] decs1 evs1 mets1 (ret ++ fb.2)
      else
        CreateAlertBulkLoop lookup now rest db1 bulk1 decs1 evs1 mets1 ret

/-- `Client.CreateAlertBulk`: ingest a submission list, returning the
persisted identifiers in input order.  `lookup` is the (per-call constant)
outcome of `QueryMachineByID(machineId)`; `now` the call's clock. -/
def CreateAlertBulk (lookup : MachineLookup) (now : Int) (alertList : List AlertIn)
    (db : DB) : Except DBErr (List String × DB) :=
  CreateAlertBulkLoop lookup now alertList db [] [] [] [] []

/-! ## Filter compiler -/

/-- Atomic predicates the compiler can emit (`alert.Where` clauses). -/
inductive AlertCond
  | simulatedEQ (b : Bool)
  | sourceScopeEQ (s : String)
  | sourceValueEQ (s : String)
  | scenarioEQ (s : String)
  | createdAtGTE (t : Int)
  | createdAtLTE (t : Int)
  | hasDecisionTypeEQ (s : String)
  | hasDecisionOriginNEQ (s : String)
  | hasDecisionUntilGTE (t : Int)
  | noDecisions
  | decisionBounds (startIP endIP : Int)
deriving DecidableEq, Repr

/-- Result of compiling a filter map: a conjunctive predicate, a returned
error, or a Go runtime panic (`value[0]` on an empty slice). -/
inductive CompileResult
  | ok (conds : List AlertCond)
  | err (e : DBErr)
  | panicked
deriving DecidableEq, Repr

/-- Effect of one case of the source switch on the compilation state:
append `Where` conditions, overwrite the `startIP`/`endIP` pair, return
an error, or panic. -/
inductive FilterStep
  | conds (cs : List AlertCond)
  | bounds (se : Int × Int)
  | err (e : DBErr)
  | panicked
deriving DecidableEq, Repr

/-- One case of the source switch for a non-`simulated` key.  Every
branch (the unknown-key default included, via its error message) begins
by reading `value[0]`, so the empty-slice panic is hoisted ahead of the
key dispatch. -/
def filterStep (now : Int) (param : String) (value : List String) : FilterStep :=
  match value with
  | [] => .panicked
  | v :: _ =>
    if param = "scope" then .conds [.sourceScopeEQ v]
    else if param = "value" then .conds [.sourceValueEQ v]
    else if param = "scenario" then .conds [.scenarioEQ v]
    else if param = "ip" then
      if IsIpv4 v then
        match GetIpsFromIpRange (v ++ "/32") with
        | .error _ => .err .invalidIPOrRange
        | .ok se => .bounds se
      else .err .invalidIPOrRange
    else if param = "range" then
      match GetIpsFromIpRange v with
      | .error _ => .err .invalidIPOrRange
      | .ok se => .bounds se
    else if param = "since" then
      match ParseDuration v with
      | .error _ => .err .durationWrapped
      | .ok d =>
        if now - d = goZeroTimeNs then .err .emptyTime
        else .conds [.createdAtGTE (now - d)]
    else if param = "until" then
      match ParseDuration v with
      | .error _ => .err .durationWrapped
      | .ok d =>
        if now - d = goZeroTimeNs then .err .emptyTime
        else .conds [.createdAtLTE (now - d)]
    else if param = "decision_type" then .conds [.hasDecisionTypeEQ v]
    else if param = "include_capi" then
      if v = "false" then .conds [.hasDecisionOriginNEQ "CAPI"]
      else .conds []
    else if param = "has_active_decision" then
      match parseBool v with
      | none => .err .parseType
      | some true => .conds [.hasDecisionUntilGTE now]
      | some false => .conds [.noDecisions]
    else .err .invalidFilter

/-- The main `switch` loop of `BuildAlertRequestFromFilter` over the
non-`simulated` entries.  `startIP`/`endIP` carry the
`var startIP, endIP int64` state; on exhaustion the decision bounds
restriction is appended only when both are non-zero. -/
def goFilter (now : Int) : List (String × List String) → List AlertCond → Int → Int →
    CompileResult
  | [], conds, startIP, endIP =>
    .ok (conds ++ (if startIP ≠ 0 ∧ endIP ≠ 0 then [.decisionBounds startIP endIP] else []))
  | (param, value) :: rest, conds, startIP, endIP =>
    match filterStep now param value with
    | .panicked => .panicked
    | .err e => .err e
    | .conds cs => goFilter now rest (conds ++ cs) startIP endIP
    | .bounds se => goFilter now rest conds se.1 se.2

/-- `BuildAlertRequestFromFilter`: the `simulated` key is handled first
(an explicit "false" adds `simulated = false`, anything else is a no-op)
and removed from the map before the main pass.  The filter map is
modelled as an association list; conjunction makes the entry order
immaterial for the produced predicate. -/
def BuildAlertRequestFromFilter (now : Int) (filter : List (String × List String)) :
    CompileResult :=
  match filter.find? (fun p => p.1 == "simulated") with
  | some (_, []) => .panicked
  | some (_, v :: _) =>
    goFilter now (filter.filter (fun p => p.1 != "simulated"))
      (if v = "false" then [.simulatedEQ false] else []) 0 0
  | none => goFilter now filter [] 0 0

/-! ## Predicate semantics and queries -/

/-- The decisions whose owner edge points at the given alert. -/
def ownedDecisions (db : DB) (aid : Nat) : List DecisionRow :=
  db.decisions.filter (fun d => d.ownerId == some aid)

/-- Evaluation of one atomic predicate against a stored alert. -/
def evalCond (db : DB) (a : AlertRow) : AlertCond → Bool
  | .simulatedEQ b => a.simulated == b
  | .sourceScopeEQ s => a.sourceScope == s
  | .sourceValueEQ s => a.sourceValue == s
  | .scenarioEQ s => a.scenario == s
  | .createdAtGTE t => decide (t ≤ a.createdAt)
  | .createdAtLTE t => decide (a.createdAt ≤ t)
  | .hasDecisionTypeEQ s => (ownedDecisions db a.id).any (fun d => d.dtype == s)
  | .hasDecisionOriginNEQ s => (ownedDecisions db a.id).any (fun d => d.origin != s)
  | .hasDecisionUntilGTE t => (ownedDecisions db a.id).any (fun d => decide (t ≤ d.untilTime))
  | .noDecisions => (ownedDecisions db a.id).isEmpty
  | .decisionBounds s e =>
    (ownedDecisions db a.id).any (fun d => decide (s ≤ d.startIP)) &&
    (ownedDecisions db a.id).any (fun d => decide (d.endIP ≤ e))

/-- Conjunction of the compiled predicate list. -/
def evalConds (db : DB) (a : AlertRow) (conds : List AlertCond) : Bool :=
  conds.all (evalCond db a)

/-- A public operation's outcome: result, returned error, or panic. -/
inductive QueryOutcome (α : Type)
  | ok (val : α)
  | err (e : DBErr)
  | panicked
deriving DecidableEq, Repr

/-- Ascending-`createdAt` ordering relation used by `Order(ent.Asc(...))`. -/
def createdAtLE (a b : AlertRow) : Prop := a.createdAt ≤ b.createdAt

instance : DecidableRel createdAtLE := fun a b =>
  inferInstanceAs (Decidable (a.createdAt ≤ b.createdAt))

instance : IsTotal AlertRow createdAtLE :=
  ⟨fun a b => Int.le_total a.createdAt b.createdAt⟩

instance : IsTrans AlertRow createdAtLE :=
  ⟨fun _ _ _ => Int.le_trans⟩

/-- Stable ascending sort by `createdAt` — the store's deterministic
`ORDER BY created_at ASC` scan. -/
def sortByCreatedAt (l : List AlertRow) : List AlertRow :=
  l.insertionSort createdAtLE

/-- `Client.QueryAlertWithFilter`: compile the filter, select the
matching alerts (child collections and owner are reachable through the
returned store) ordered ascending by `createdAt`. -/
def QueryAlertWithFilter (now : Int) (filter : List (String × List String)) (db : DB) :
    QueryOutcome (List AlertRow) :=
  match BuildAlertRequestFromFilter now filter with
  | .panicked => .panicked
  | .err e => .err e
  | .ok conds => .ok (sortByCreatedAt (db.alerts.filter (fun a => evalConds db a conds)))

/-- `Client.DeleteAlertGraph`: delete the alert's events, metas and
decisions (matching on the owner edge), then the alert row itself.
Storage deletes are infallible in the model, so the `DeleteFail`
branches are unreachable. -/
def DeleteAlertGraph (db : DB) (a : AlertRow) : DB :=
  { db with
      events := db.events.filter (fun e => !(e.ownerId == some a.id)),
      metas := db.metas.filter (fun m => !(m.ownerId == some a.id)),
      decisions := db.decisions.filter (fun d => !(d.ownerId == some a.id)),
      alerts := db.alerts.filter (fun x => x.id != a.id) }

/-- `Client.DeleteAlertWithFilter`.  The source assigns the error from
`QueryAlertWithFilter` to `err` but never checks it: on a filter
compilation failure it iterates over the empty result slice and returns
`(empty, nil)` — the error is silently dropped. -/
def DeleteAlertWithFilter (now : Int) (filter : List (String × List String)) (db : DB) :
    QueryOutcome (List AlertRow × DB) :=
  match QueryAlertWithFilter now filter db with
  | .panicked => .panicked
  | .err _ => .ok ([], db)
  | .ok as => .ok (as, as.foldl DeleteAlertGraph db)

/-- `Client.FlushAlerts`: the age pass (when `MaxAge > 0`) delegates to
`DeleteAlertWithFilter` with `until` bound to the RFC3339-formatted
cutoff instant; the count pass (when `MaxItems > 0`) deletes the oldest
`count - MaxItems` alerts of the ascending `createdAt` scan (the source
guards the deletion loop by index; `take` expresses the same prefix).
`totalDeleted` is only logged, not returned. -/
def FlushAlerts (MaxAge MaxItems : Int) (now : Int) (db : DB) : QueryOutcome DB :=
  let afterAge : QueryOutcome DB :=
    if 0 < MaxAge then
      match DeleteAlertWithFilter now [("until", [formatRFC3339 (now - MaxAge)])] db with
      | .panicked => .panicked
      | .err e => .err e
      | .ok r => .ok r.2
    else .ok db
  match afterAge with
  | .ok db1 =>
    if 0 < MaxItems then
      if MaxItems < (db1.alerts.length : Int) then
        let nbToDelete := ((db1.alerts.length : Int) - MaxItems).toNat
        .ok (((sortByCreatedAt db1.alerts).take nbToDelete).foldl DeleteAlertGraph db1)
      else .ok db1
    else .ok db1
  | r => r

/-! ## Auxiliary predicates and fixtures -/

/-- Whether an `Except` computation succeeded. -/
def parseOk {ε α : Type} : Except ε α → Bool
  | .ok _ => true
  | .error _ => false

/-- A submission all of whose parse steps succeed (start/stop instants,
event timestamps, decision durations). -/
def validSub (s : AlertIn) : Prop :=
  parseOk (parseRFC3339 s.startAt) = true ∧ parseOk (parseRFC3339 s.stopAt) = true
    ∧ (∀ e ∈ s.events, parseOk (parseRFC3339 e.timestamp) = true)
    ∧ (∀ d ∈ s.decisions, parseOk (ParseDuration d.duration) = true)

instance (s : AlertIn) : Decidable (validSub s) := by
  unfold validSub; infer_instance

/-- Stored alerts have pairwise distinct identifiers. -/
def WFAlerts (db : DB) : Prop := (db.alerts.map (fun a => a.id)).Nodup

instance (db : DB) : Decidable (WFAlerts db) := by
  unfold WFAlerts; infer_instance

/-- The identifier list of an ingestion result (`[]` on error, as the
source returns `[]string{}` alongside every error). -/
def resultIds (r : Except DBErr (List String × DB)) : List String :=
  match r with
  | .ok p => p.1
  | .error _ => []

/-- The store of an ingestion result (`fallback` on error). -/
def resultDB (r : Except DBErr (List String × DB)) (fallback : DB) : DB :=
  match r with
  | .ok p => p.2
  | .error _ => fallback

/-- The filter keys the compiler's switch recognizes. -/
def recognizedKeys : List String :=
  ["simulated", "scope", "value", "scenario", "ip", "range", "since", "until",
   "decision_type", "include_capi", "has_active_decision"]

/-- Concrete source descriptor for fixtures. -/
def srcW : SourceIn := ⟨"ip", "10.0.0.1", "10.0.0.1", "", "", "", ""⟩

/-- Concrete decision submission for fixtures. -/
def decInW : DecisionIn :=
  ⟨"4h", "ssh-bruteforce", "ban", 167772161, 167772161, "10.0.0.1", "ip", "CAPI"⟩

/-- A valid submission carrying exactly one decision and no events/metas. -/
def subWithDecision : AlertIn :=
  ⟨"ssh-bruteforce", "msg", 5, "2024-01-01T00:00:00Z", "2024-01-01T00:00:00Z",
   srcW, 5, "10s", false, "v1", "h1", [], [], [decInW]⟩

/-- The same submission with zero decisions. -/
def subNoDecision : AlertIn := { subWithDecision with decisions := [] }

/-- Ingesting the one-decision submission followed by the zero-decision
submission into an empty store. -/
def c2Run : Except DBErr (List String × DB) :=
  CreateAlertBulk .notFound 0 [subWithDecision, subNoDecision] DB.empty

/-- A stored alert row with the given identifier and creation instant. -/
def alertRowW (i : Nat) (t : Int) : AlertRow :=
  ⟨i, t, "scenario", "msg", 1, 0, 0, "ip", "1.2.3.4", "", "", "", "", "",
   1, "10s", false, "v1", "h1", none⟩

/-- A store holding one alert created at the epoch. -/
def dbOldW : DB := ⟨[alertRowW 1 0], [], [], [], 2, 1, 1, 1⟩

/-- 2026-01-01T00:00:00Z in Unix nanoseconds. -/
def nowW : Int := 1767225600000000000

/-- 24 hours in nanoseconds. -/
def oneDayNs : Int := 86400000000000

/-- Five alerts, oldest to newest. -/
def db5W : DB :=
  ⟨[alertRowW 1 10, alertRowW 2 20, alertRowW 3 30, alertRowW 4 40, alertRowW 5 50],
   [], [], [], 6, 1, 1, 1⟩

/-! ## Claim theorems -/

/-- C1: the claim says that for `MaxAge > 0` the flush selects exactly the
alerts with `createdAt ≤ now − MaxAge` and cascading-deletes them.  The
code does not: the age pass binds `until` to the RFC3339-formatted cutoff
instant, the `until` filter branch parses its value with the duration
grammar (which rejects every RFC3339 instant), and `DeleteAlertWithFilter`
discards the resulting error — so with a one-day `MaxAge` and an alert a
full 56 years older than the cutoff, the flush deletes nothing and reports
success. -/
theorem C1_age_flush_deletes_nothing :
    FlushAlerts oneDayNs 0 nowW dbOldW = .ok dbOldW
    ∧ dbOldW.alerts.length = 1
    ∧ (∀ a ∈ dbOldW.alerts, a.createdAt ≤ nowW - oneDayNs)
    ∧ BuildAlertRequestFromFilter nowW [("until", [formatRFC3339 (nowW - oneDayNs)])]
        = .err .durationWrapped := by decide

/-- C2: the claim says each ingested alert owns exactly the children
submitted with it, and in particular a zero-decision submission yields an
alert with zero decisions even when the preceding submission had some.
The code violates this: the `decisions`/`metas`/`events` slices are
declared outside the submission loop, so the zero-decision second
submission reuses the first's decision slice and re-attaches (re-parents)
that row — alert 2 ends up owning the single decision submitted with
alert 1, and alert 1 owns none. -/
theorem C2_stale_child_slices :
    resultIds c2Run = ["1", "2"]
    ∧ ((resultDB c2Run DB.empty).decisions.filter
        (fun d => d.ownerId == some 2)).length = 1
    ∧ ((resultDB c2Run DB.empty).decisions.filter
        (fun d => d.ownerId == some 1)).length = 0
    ∧ subWithDecision.decisions.length = 1
    ∧ subNoDecision.decisions = [] := by decide

/-- C3: the claim says a filter-compilation failure makes
`DeleteAlertWithFilter` return that error and delete nothing.  The code
deletes nothing but returns a nil error: the error from
`QueryAlertWithFilter` is assigned and never checked, so both an unknown
key (`InvalidFilter`) and a bad ip (`InvalidIPOrRange`) yield
`(empty, nil)` instead of the compilation error. -/
theorem C3_compile_error_swallowed :
    BuildAlertRequestFromFilter nowW [("does_not_exist", ["x"])] = .err .invalidFilter
    ∧ DeleteAlertWithFilter nowW [("does_not_exist", ["x"])] dbOldW = .ok ([], dbOldW)
    ∧ BuildAlertRequestFromFilter nowW [("ip", ["999.1.2.3"])] = .err .invalidIPOrRange
    ∧ DeleteAlertWithFilter nowW [("ip", ["999.1.2.3"])] dbOldW = .ok ([], dbOldW) := by
  decide

/-- Compilation of a single-entry filter map whose key is not
`simulated` is determined by its switch case. -/
theorem build_single (now : Int) (k : String) (vs : List String)
    (hk : (k == "simulated") = false) :
    BuildAlertRequestFromFilter now [(k, vs)] =
      match filterStep now k vs with
      | .panicked => .panicked
      | .err e => .err e
      | .conds cs => .ok cs
      | .bounds se =>
        .ok (if se.1 ≠ 0 ∧ se.2 ≠ 0 then [.decisionBounds se.1 se.2] else []) := by
  unfold BuildAlertRequestFromFilter
  simp only [List.find?, hk, List.filter, goFilter]
  cases filterStep now k vs <;> simp [goFilter]

/-- C7: the `has_active_decision` filter with value "true" compiles to —
and matches exactly — "at least one owned decision with `until ≥ now`";
with "false" it matches exactly the alerts owning zero decisions; a value
outside `strconv.ParseBool`'s accepted set fails with `ParseType` and no
predicate is produced. -/
theorem C7_has_active_decision (now : Int) (db : DB) (a : AlertRow) (v : String) :
    (BuildAlertRequestFromFilter now [("has_active_decision", ["true"])]
        = .ok [.hasDecisionUntilGTE now]
      ∧ (evalConds db a [.hasDecisionUntilGTE now] = true
          ↔ ∃ d ∈ db.decisions, d.ownerId = some a.id ∧ now ≤ d.untilTime))
    ∧ (BuildAlertRequestFromFilter now [("has_active_decision", ["false"])]
        = .ok [.noDecisions]
      ∧ (evalConds db a [.noDecisions] = true
          ↔ ¬∃ d ∈ db.decisions, d.ownerId = some a.id))
    ∧ (v ≠ "1" → v ≠ "t" → v ≠ "T" → v ≠ "true" → v ≠ "TRUE" → v ≠ "True" →
       v ≠ "0" → v ≠ "f" → v ≠ "F" → v ≠ "false" → v ≠ "FALSE" → v ≠ "False" →
       BuildAlertRequestFromFilter now [("has_active_decision", [v])]
         = .err .parseType) := by
  refine ⟨⟨rfl, ?_⟩, ⟨rfl, ?_⟩, ?_⟩
  · simp [evalConds, evalCond, ownedDecisions, List.any_eq_true, List.mem_filter,
      and_assoc]
  · simp [evalConds, evalCond, ownedDecisions, List.isEmpty_iff,
      List.filter_eq_nil_iff, List.eq_nil_iff_forall_not_mem, List.mem_filter]
  · intro h1 h2 h3 h4 h5 h6 h7 h8 h9 h10 h11 h12
    have hpb : parseBool v = none := by
      simp [parseBool, h1, h2, h3, h4, h5, h6, h7, h8, h9, h10, h11, h12]
    have hstep : filterStep now "has_active_decision" [v] = .err .parseType := by
      simp [filterStep, hpb]
    rw [build_single now "has_active_decision" [v] (by decide), hstep]

/-- C8: for an IPv4 host `X`, the filters `ip=X` and `range=X/32` compile
to the same predicate (the `ip` branch appends "/32" and calls the same
codec), hence produce identical result sets on every store. -/
theorem C8_ip_equals_slash32_range (X : String) (hX : IsIpv4 X = true) (now : Int) :
    BuildAlertRequestFromFilter now [("ip", [X])]
      = BuildAlertRequestFromFilter now [("range", [X ++ "/32"])]
    ∧ ∀ db : DB, QueryAlertWithFilter now [("ip", [X])] db
        = QueryAlertWithFilter now [("range", [X ++ "/32"])] db := by
  have hstep : filterStep now "ip" [X] = filterStep now "range" [X ++ "/32"] := by
    cases hG : GetIpsFromIpRange (X ++ "/32") with
    | error e => simp [filterStep, hX, hG]
    | ok se => simp [filterStep, hX, hG]
  have hc : BuildAlertRequestFromFilter now [("ip", [X])]
      = BuildAlertRequestFromFilter now [("range", [X ++ "/32"])] := by
    rw [build_single now "ip" [X] (by decide),
      build_single now "range" [X ++ "/32"] (by decide), hstep]
  exact ⟨hc, fun db => by simp only [QueryAlertWithFilter, hc]⟩

set_option maxHeartbeats 1600000 in
/-- A switch case over a non-empty value list never panics. -/
theorem filterStep_no_panic (now : Int) (k : String) (vs : List String)
    (h : vs ≠ []) : filterStep now k vs ≠ .panicked := by
  obtain ⟨v, tl, rfl⟩ : ∃ v tl, vs = v :: tl := by
    cases vs with
    | nil => exact absurd rfl h
    | cons v tl => exact ⟨v, tl, rfl⟩
  unfold filterStep
  intro hp
  repeat' split at hp
  any_goals simp at hp
  all_goals exact absurd ‹v :: tl = []› (List.cons_ne_nil v tl)

/-- With every value list non-empty, the switch loop never panics: each
case returns an error or the loop advances. -/
theorem goFilter_no_panic (now : Int) :
    ∀ (l : List (String × List String)) (conds : List AlertCond) (s e : Int),
      (∀ p ∈ l, p.2 ≠ []) → goFilter now l conds s e ≠ .panicked
  | [], _, _, _, _ => by simp [goFilter]
  | (k, vs) :: rest, conds, s, e, h => by
    have hvs : vs ≠ [] := h (k, vs) (by simp)
    have hrest : ∀ p ∈ rest, p.2 ≠ [] := fun p hp => h p (by simp [hp])
    simp only [goFilter]
    intro hp
    split at hp
    · exact filterStep_no_panic now k vs hvs (by assumption)
    · exact absurd hp (by simp)
    · exact goFilter_no_panic now rest _ _ _ hrest hp
    · exact goFilter_no_panic now rest _ _ _ hrest hp

/-- C9: implicit precondition of the filter compiler — every branch of the
switch (the unknown-key default included) reads `value[0]` unguarded, so
each recognized key mapped to an empty value list panics (index out of
bounds) instead of returning an error, while filters whose value lists are
all non-empty never panic. -/
theorem C9_empty_value_list_panics :
    (∀ now : Int, ∀ k ∈ recognizedKeys,
        BuildAlertRequestFromFilter now [(k, [])] = .panicked)
    ∧ (∀ (now : Int) (filter : List (String × List String)),
        (∀ p ∈ filter, p.2 ≠ []) → BuildAlertRequestFromFilter now filter ≠ .panicked) := by
  constructor
  · intro now k hk
    fin_cases hk <;> rfl
  · intro now filter hne hp
    unfold BuildAlertRequestFromFilter at hp
    split at hp
    · rename_i fst heq
      exact (hne _ (List.mem_of_find?_eq_some heq)) rfl
    · rename_i fst v tlv heq
      exact goFilter_no_panic now _ _ _ _
        (fun q hq => hne q (List.mem_of_mem_filter hq)) hp
    · exact goFilter_no_panic now _ _ _ _ hne hp

/-- C10: the decision-bounds restriction from `ip`/`range` is appended
only when both numeric bounds are non-zero; any range whose computed
start is 0 (every CIDR starting at 0.0.0.0) compiles to the empty
predicate list, making the query behave exactly as with no filter. -/
theorem C10_zero_start_omits_bounds (now s e : Int) (str : String)
    (h : GetIpsFromIpRange str = .ok (s, e)) :
    BuildAlertRequestFromFilter now [("range", [str])]
      = .ok (if s ≠ 0 ∧ e ≠ 0 then [.decisionBounds s e] else [])
    ∧ (s = 0 →
        BuildAlertRequestFromFilter now [("range", [str])] = .ok []
        ∧ ∀ db : DB, QueryAlertWithFilter now [("range", [str])] db
            = QueryAlertWithFilter now [] db) := by
  have hstep : filterStep now "range" [str] = .bounds (s, e) := by
    simp [filterStep, h]
  have hc : BuildAlertRequestFromFilter now [("range", [str])]
      = .ok (if s ≠ 0 ∧ e ≠ 0 then [.decisionBounds s e] else []) := by
    rw [build_single now "range" [str] (by decide), hstep]
  refine ⟨hc, fun hs => ?_⟩
  subst hs
  have hc0 : BuildAlertRequestFromFilter now [("range", [str])] = .ok [] := by
    simpa using hc
  exact ⟨hc0, fun db => by simp only [QueryAlertWithFilter, hc0]; rfl⟩

/-- Success of an `Except` computation is equivalent to an `ok` witness. -/
theorem parseOk_eq_true {ε α : Type} (r : Except ε α) :
    parseOk r = true ↔ ∃ a, r = .ok a := by
  cases r <;> simp [parseOk]

/-- All event timestamps parse → the event rows build succeeds. -/
theorem parseEventRows_ok (l : List EventIn)
    (h : ∀ e ∈ l, parseOk (parseRFC3339 e.timestamp) = true) :
    ∃ rows, parseEventRows l = .ok rows := by
  induction l with
  | nil => exact ⟨[], rfl⟩
  | cons e rest ih =>
    obtain ⟨t, ht⟩ := (parseOk_eq_true _).mp (h e (by simp))
    obtain ⟨rows, hrows⟩ := ih (fun x hx => h x (by simp [hx]))
    exact ⟨(t, serializeMeta e.meta) :: rows, by simp [parseEventRows, ht, hrows]⟩

/-- All decision durations parse → the until computation succeeds. -/
theorem parseDecisionUntils_ok (now : Int) (l : List DecisionIn)
    (h : ∀ d ∈ l, parseOk (ParseDuration d.duration) = true) :
    ∃ rows, parseDecisionUntils now l = .ok rows := by
  induction l with
  | nil => exact ⟨[], rfl⟩
  | cons d rest ih =>
    obtain ⟨t, ht⟩ := (parseOk_eq_true _).mp (h d (by simp))
    obtain ⟨rows, hrows⟩ := ih (fun x hx => h x (by simp [hx]))
    exact ⟨(now + t, d) :: rows, by simp [parseDecisionUntils, ht, hrows]⟩

/-- The iteration body of a valid submission succeeds. -/
theorem processItemBody_isOk (owner : Option Nat) (now : Int) (db : DB) (item : AlertIn)
    (decs evs mets : List Nat) (hv : validSub item) :
    parseOk (processItemBody owner now db item decs evs mets) = true := by
  obtain ⟨hstart, hstop, hev, hdec⟩ := hv
  obtain ⟨ts, hts⟩ := (parseOk_eq_true _).mp hstart
  obtain ⟨tp, htp⟩ := (parseOk_eq_true _).mp hstop
  obtain ⟨rowsE, hrowsE⟩ := parseEventRows_ok item.events hev
  obtain ⟨rowsD, hrowsD⟩ := parseDecisionUntils_ok now item.decisions hdec
  by_cases hE : item.events.isEmpty <;> by_cases hM : item.meta.isEmpty <;>
      by_cases hD : item.decisions.isEmpty <;>
    simp [processItemBody, stepEvents, stepMetas, stepDecisions, hts, htp, hrowsE,
      hrowsD, hE, hM, hD, Except.map, parseOk]

/-- The event sub-step leaves the alert table and its counter alone. -/
theorem stepEvents_inv (db : DB) (item : AlertIn) (evs : List Nat)
    (db1 : DB) (evs1 : List Nat) (h : stepEvents db item evs = .ok (db1, evs1)) :
    db1.nextAlertId = db.nextAlertId ∧ db1.alerts = db.alerts := by
  unfold stepEvents at h
  split at h
  · cases h
    exact ⟨rfl, rfl⟩
  · cases hp : parseEventRows item.events with
    | error e => rw [hp] at h; simp [Except.map] at h
    | ok rows =>
      rw [hp] at h
      simp only [Except.map, Except.ok.injEq] at h
      have h1 : (createEventRows db rows).1 = db1 := congrArg Prod.fst h
      rw [← h1]
      exact ⟨rfl, rfl⟩

/-- The meta sub-step leaves the alert table and its counter alone. -/
theorem stepMetas_inv (db : DB) (item : AlertIn) (mets : List Nat) :
    (stepMetas db item mets).1.nextAlertId = db.nextAlertId
      ∧ (stepMetas db item mets).1.alerts = db.alerts := by
  unfold stepMetas
  split
  · exact ⟨rfl, rfl⟩
  · exact ⟨rfl, rfl⟩

/-- The decision sub-step leaves the alert table and its counter alone. -/
theorem stepDecisions_inv (now : Int) (db : DB) (item : AlertIn) (decs : List Nat)
    (db1 : DB) (decs1 : List Nat) (h : stepDecisions now db item decs = .ok (db1, decs1)) :
    db1.nextAlertId = db.nextAlertId ∧ db1.alerts = db.alerts := by
  unfold stepDecisions at h
  split at h
  · cases h
    exact ⟨rfl, rfl⟩
  · cases hp : parseDecisionUntils now item.decisions with
    | error e => rw [hp] at h; simp [Except.map] at h
    | ok rows =>
      rw [hp] at h
      simp only [Except.map, Except.ok.injEq] at h
      have h1 : (createDecisionRows db item.simulated rows).1 = db1 := congrArg Prod.fst h
      rw [← h1]
      exact ⟨rfl, rfl⟩

/-- Whatever the iteration body returns on success, the alert table and
its counter are untouched and the pending owner is the given one. -/
theorem processItemBody_inv (owner : Option Nat) (now : Int) (db : DB) (item : AlertIn)
    (decs evs mets : List Nat)
    (r : DB × PendingAlert × List Nat × List Nat × List Nat)
    (hres : processItemBody owner now db item decs evs mets = .ok r) :
    r.1.nextAlertId = db.nextAlertId ∧ r.1.alerts = db.alerts
      ∧ r.2.1.owner = owner := by
  unfold processItemBody at hres
  cases hs : parseRFC3339 item.startAt with
  | error e => simp only [hs] at hres; cases hres
  | ok ts =>
    simp only [hs] at hres
    cases hp : parseRFC3339 item.stopAt with
    | error e => simp only [hp] at hres; cases hres
    | ok tp =>
      simp only [hp] at hres
      cases hE : stepEvents db item evs with
      | error e => simp only [hE] at hres; cases hres
      | ok de =>
        obtain ⟨db1, evs1⟩ := de
        simp only [hE] at hres
        cases hD : stepDecisions now (stepMetas db1 item mets).1 item decs with
        | error e => simp only [hD] at hres; cases hres
        | ok dd =>
          obtain ⟨db2, decs1⟩ := dd
          simp only [hD, Except.ok.injEq] at hres
          subst hres
          refine ⟨?_, ?_, rfl⟩
          · rw [(stepDecisions_inv now _ item decs db2 decs1 hD).1,
              (stepMetas_inv db1 item mets).1,
              (stepEvents_inv db item evs db1 evs1 hE).1]
          · rw [(stepDecisions_inv now _ item decs db2 decs1 hD).2,
              (stepMetas_inv db1 item mets).2,
              (stepEvents_inv db item evs db1 evs1 hE).2]

/-- A valid submission processes successfully, touching neither the alert
table nor its counter, and resolving the owner from the lookup. -/
theorem processItem_ok (lookup : MachineLookup) (now : Int) (db : DB) (item : AlertIn)
    (decs evs mets : List Nat) (hv : validSub item) (hl : lookup ≠ .otherErr) :
    ∃ r, processItem lookup now db item decs evs mets = .ok r
      ∧ r.1.nextAlertId = db.nextAlertId
      ∧ r.1.alerts = db.alerts
      ∧ r.2.1.owner = ownerOf lookup := by
  have hred : processItem lookup now db item decs evs mets
      = processItemBody (ownerOf lookup) now db item decs evs mets := by
    cases lookup with
    | otherErr => exact absurd rfl hl
    | found m => rfl
    | notFound => rfl
  obtain ⟨r, hr⟩ := (parseOk_eq_true _).mp
    (processItemBody_isOk (ownerOf lookup) now db item decs evs mets hv)
  obtain ⟨h1, h2, h3⟩ := processItemBody_inv (ownerOf lookup) now db item decs evs mets r hr
  exact ⟨r, hred.trans hr, h1, h2, h3⟩

/-- The fold applying child attachments touches neither the alert table
nor the alert counter. -/
theorem attachFold_preserve (l : List (PendingAlert × Nat)) :
    ∀ db : DB,
      (l.foldl (fun d p => attachChildren d p.2 p.1) db).nextAlertId = db.nextAlertId
      ∧ (l.foldl (fun d p => attachChildren d p.2 p.1) db).alerts = db.alerts := by
  induction l with
  | nil => exact fun db => ⟨rfl, rfl⟩
  | cons x xs ih =>
    intro db
    simp only [List.foldl_cons]
    exact ⟨(ih _).1.trans rfl, (ih _).2.trans rfl⟩

/-- The batch flush returns the next `bulk.length` identifiers in order
and advances the alert counter by exactly that amount. -/
theorem flushBatch_spec (db : DB) (now : Int) (bulk : List PendingAlert) :
    (flushBatch db now bulk).2
        = (List.range' db.nextAlertId bulk.length).map (fun i => toString i)
      ∧ (flushBatch db now bulk).1.nextAlertId = db.nextAlertId + bulk.length := by
  unfold flushBatch
  exact ⟨rfl, ((attachFold_preserve _ _).1).trans rfl⟩

/-- The batch flush appends exactly the rows built from the buffer. -/
theorem flushBatch_alerts (db : DB) (now : Int) (bulk : List PendingAlert) :
    (flushBatch db now bulk).1.alerts
      = db.alerts ++ (bulk.zip (List.range' db.nextAlertId bulk.length)).map
          (fun p => mkAlertRow p.2 now p.1) := by
  unfold flushBatch
  exact ((attachFold_preserve _ _).2).trans rfl

/-- Loop invariant: with a non-fatal lookup and valid submissions, the
loop succeeds and appends one identifier per buffered or remaining
submission, consecutive from the alert counter. -/
theorem CreateAlertBulkLoop_ids (lookup : MachineLookup) (now : Int)
    (hl : lookup ≠ .otherErr) :
    ∀ (l : List AlertIn) (db : DB) (bulk : List PendingAlert)
      (decs evs mets : List Nat) (ret : List String),
      (∀ s ∈ l, validSub s) →
      ∃ db', CreateAlertBulkLoop lookup now l db bulk decs evs mets ret
        = .ok (ret ++ (List.range' db.nextAlertId (bulk.length + l.length)).map
            (fun i => toString i), db')
  | [], db, bulk, decs, evs, mets, ret, _ => by
    refine ⟨(flushBatch db now bulk).1, ?_⟩
    simp only [CreateAlertBulkLoop]
    rw [(flushBatch_spec db now bulk).1]
    simp
  | item :: rest, db, bulk, decs, evs, mets, ret, hv => by
    obtain ⟨r, hr, hna, hal, how⟩ := processItem_ok lookup now db item decs evs mets
      (hv item (by simp)) hl
    obtain ⟨db1, p, decs1, evs1, mets1⟩ := r
    simp only [CreateAlertBulkLoop, hr]
    by_cases h20 : (bulk ++ [p]).length = 20
    · rw [if_pos h20]
      obtain ⟨db', hdb'⟩ := CreateAlertBulkLoop_ids lookup now hl rest
        (flushBatch db1 now (bulk ++ [p])).1 [] decs1 evs1 mets1
        (ret ++ (flushBatch db1 now (bulk ++ [p])).2)
        (fun s hs => hv s (by simp [hs]))
      refine ⟨db', ?_⟩
      rw [hdb', (flushBatch_spec db1 now (bulk ++ [p])).1,
        (flushBatch_spec db1 now (bulk ++ [p])).2, hna]
      have hcount : bulk.length + (item :: rest).length
          = rest.length + (bulk ++ [p]).length := by
        simp
        omega
      rw [hcount, List.append_assoc, ← List.map_append, List.range'_append_1]
      simp
    · rw [if_neg h20]
      obtain ⟨db', hdb'⟩ := CreateAlertBulkLoop_ids lookup now hl rest
        db1 (bulk ++ [p]) decs1 evs1 mets1 ret
        (fun s hs => hv s (by simp [hs]))
      refine ⟨db', ?_⟩
      rw [hdb', hna]
      have hcount : (bulk ++ [p]).length + rest.length
          = bulk.length + (item :: rest).length := by
        simp
        omega
      rw [hcount]

/-- C4: with all parses succeeding and every bulk persist succeeding, the
ingestion of N submissions returns exactly N identifiers, one per
submission, in input order (the i-th identifier is the identifier
assigned to the i-th submitted alert), irrespective of how N relates to
the batch size of 20. -/
theorem C4_identifiers_in_order (lookup : MachineLookup) (now : Int)
    (l : List AlertIn) (db : DB) (hl : lookup ≠ .otherErr)
    (hv : ∀ s ∈ l, validSub s) :
    ∃ db', CreateAlertBulk lookup now l db
        = .ok ((List.range' db.nextAlertId l.length).map (fun i => toString i), db')
      ∧ ((List.range' db.nextAlertId l.length).map (fun i => toString i)).length
          = l.length := by
  obtain ⟨db', h⟩ := CreateAlertBulkLoop_ids lookup now hl l db [] [] [] [] [] hv
  exact ⟨db', by simpa [CreateAlertBulk] using h, by simp⟩

/-- C4 witness: 21 valid submissions (one more than the batch size) into
an empty store yield identifiers "1".."21" in order. -/
theorem C4_witness :
    ∃ db', CreateAlertBulk .notFound 0 (List.replicate 21 subWithDecision) DB.empty
        = .ok ((List.range' 1 21).map (fun i => toString i), db')
      ∧ ((List.range' 1 21).map (fun i => toString i)).length = 21 :=
  C4_identifiers_in_order .notFound 0 (List.replicate 21 subWithDecision) DB.empty
    (by decide) (by decide)

/-- Every alert row a batch flush appends carries the buffered owner;
with an ownerless store and buffer, the store stays ownerless. -/
theorem flushBatch_owner_none (db : DB) (now : Int) (bulk : List PendingAlert)
    (hdb : ∀ a ∈ db.alerts, a.ownerId = none) (hb : ∀ p ∈ bulk, p.owner = none) :
    ∀ a ∈ (flushBatch db now bulk).1.alerts, a.ownerId = none := by
  intro a ha
  rw [flushBatch_alerts] at ha
  rcases List.mem_append.mp ha with h | h
  · exact hdb a h
  · obtain ⟨⟨p, i⟩, hp, rfl⟩ := List.mem_map.mp h
    have hpb : p ∈ bulk := (List.of_mem_zip hp).1
    simpa [mkAlertRow] using hb p hpb

/-- Loop invariant for a not-found machine: ingestion succeeds and every
stored alert stays ownerless. -/
theorem CreateAlertBulkLoop_owner_none (now : Int) :
    ∀ (l : List AlertIn) (db : DB) (bulk : List PendingAlert)
      (decs evs mets : List Nat) (ret : List String),
      (∀ s ∈ l, validSub s) →
      (∀ a ∈ db.alerts, a.ownerId = none) →
      (∀ p ∈ bulk, p.owner = none) →
      ∃ ids db', CreateAlertBulkLoop .notFound now l db bulk decs evs mets ret
          = .ok (ids, db') ∧ ∀ a ∈ db'.alerts, a.ownerId = none
  | [], db, bulk, decs, evs, mets, ret, _, hdb, hb =>
    ⟨_, _, rfl, flushBatch_owner_none db now bulk hdb hb⟩
  | item :: rest, db, bulk, decs, evs, mets, ret, hv, hdb, hb => by
    obtain ⟨r, hr, hna, hal, how⟩ := processItem_ok .notFound now db item decs evs mets
      (hv item (by simp)) (by simp)
    obtain ⟨db1, p, decs1, evs1, mets1⟩ := r
    have hdb1 : ∀ a ∈ db1.alerts, a.ownerId = none := by
      rw [hal]; exact hdb
    have hbp : ∀ q ∈ bulk ++ [p], q.owner = none := by
      intro q hq
      rcases List.mem_append.mp hq with h | h
      · exact hb q h
      · simp at h
        subst h
        exact how.trans rfl
    simp only [CreateAlertBulkLoop, hr]
    by_cases h20 : (bulk ++ [p]).length = 20
    · rw [if_pos h20]
      exact CreateAlertBulkLoop_owner_none now rest
        (flushBatch db1 now (bulk ++ [p])).1 [] decs1 evs1 mets1
        (ret ++ (flushBatch db1 now (bulk ++ [p])).2)
        (fun s hs => hv s (by simp [hs]))
        (flushBatch_owner_none db1 now (bulk ++ [p]) hdb1 hbp)
        (by simp)
    · rw [if_neg h20]
      exact CreateAlertBulkLoop_owner_none now rest db1 (bulk ++ [p])
        decs1 evs1 mets1 ret
        (fun s hs => hv s (by simp [hs])) hdb1 hbp

/-- C6: per the lookup outcome of the reporting machine — any lookup
error other than "not found" aborts the whole call with `QueryFail` (the
source also returns the empty identifier list alongside it), while "not
found" degrades to ownerless alerts and the call proceeds. -/
theorem C6_machine_lookup (now : Int) (l : List AlertIn) (db : DB) :
    (l ≠ [] → CreateAlertBulk .otherErr now l db = .error .queryFail)
    ∧ ((∀ s ∈ l, validSub s) → (∀ a ∈ db.alerts, a.ownerId = none) →
        ∃ ids db', CreateAlertBulk .notFound now l db = .ok (ids, db')
          ∧ ∀ a ∈ db'.alerts, a.ownerId = none) := by
  constructor
  · intro hne
    cases l with
    | nil => exact absurd rfl hne
    | cons a rest => rfl
  · intro hv hdb
    exact CreateAlertBulkLoop_owner_none now l db [] [] [] [] [] hv hdb (by simp)

/-- C6 witness: a fatal lookup error aborts with `QueryFail`; a not-found
lookup ingests the same submission with no owner. -/
theorem C6_witness :
    CreateAlertBulk .otherErr 0 [subWithDecision] DB.empty = .error .queryFail
    ∧ ∃ ids db', CreateAlertBulk .notFound 0 [subWithDecision] DB.empty = .ok (ids, db')
        ∧ ∀ a ∈ db'.alerts, a.ownerId = none :=
  ⟨(C6_machine_lookup 0 [subWithDecision] DB.empty).1 (by decide),
   (C6_machine_lookup 0 [subWithDecision] DB.empty).2 (by decide) (by decide)⟩

/-- Folding the cascading delete over a row list removes from the alert
table exactly the rows whose identifier occurs in the list. -/
theorem deleteFold_alerts :
    ∀ (l : List AlertRow) (db : DB),
      (l.foldl DeleteAlertGraph db).alerts
        = db.alerts.filter (fun a => l.all (fun x => a.id != x.id))
  | [], db => by simp
  | x :: xs, db => by
    rw [List.foldl_cons, deleteFold_alerts xs (DeleteAlertGraph db x)]
    show ((db.alerts.filter (fun a => a.id != x.id)).filter
        (fun a => xs.all (fun y => a.id != y.id))) = _
    rw [List.filter_filter]
    congr 1
    funext a
    simp [List.all_cons, Bool.and_comm]

/-- Removing the identifiers of the prefix from a duplicate-free
concatenation leaves exactly the suffix. -/
theorem filter_killed (l₁ l₂ : List AlertRow)
    (h : ((l₁ ++ l₂).map (fun a => a.id)).Nodup) :
    (l₁ ++ l₂).filter (fun a => l₁.all (fun x => a.id != x.id)) = l₂ := by
  have hdisj := List.disjoint_of_nodup_append (by simpa [List.map_append] using h)
  have hnd1 : (l₁.map (fun a => a.id)).Nodup :=
    ((List.nodup_append.mp (by simpa [List.map_append] using h))).1
  rw [List.filter_append]
  have hnil : l₁.filter (fun a => l₁.all (fun x => a.id != x.id)) = [] := by
    rw [List.filter_eq_nil_iff]
    intro a ha hall
    simp only [List.all_eq_true] at hall
    simpa using hall a ha
  have hself : l₂.filter (fun a => l₁.all (fun x => a.id != x.id)) = l₂ := by
    rw [List.filter_eq_self]
    intro a ha
    simp only [List.all_eq_true]
    intro x hx
    simp only [bne_iff_ne, ne_eq]
    intro heq
    exact hdisj (List.mem_map_of_mem _ hx)
      (heq ▸ List.mem_map_of_mem (fun a => a.id) ha)
  rw [hnil, hself, List.nil_append]

/-- With `MaxAge = 0` the age pass is skipped and the flush reduces to
the count pass. -/
theorem FlushAlerts_zero_age (m now : Int) (db : DB) :
    FlushAlerts 0 m now db =
      (if 0 < m then
        if m < (db.alerts.length : Int) then
          .ok (((sortByCreatedAt db.alerts).take
            (((db.alerts.length : Int) - m).toNat)).foldl DeleteAlertGraph db)
        else .ok db
      else .ok db) := by
  unfold FlushAlerts
  rw [if_neg (lt_irrefl 0)]

/-- C5: for `MaxItems > 0`, when the stored count exceeds `MaxItems` the
count pass deletes exactly the `count − MaxItems` alerts with the
smallest `createdAt` (the prefix of the ascending scan) and leaves the
`MaxItems` newest (every deleted alert is no newer than every survivor);
when the count does not exceed `MaxItems`, or `MaxItems = 0`, it deletes
nothing — and zero deletions is not an error. -/
theorem C5_flush_count_pass (db : DB) (m now : Int) (hwf : WFAlerts db) :
    (0 < m → m < (db.alerts.length : Int) →
      ∃ db', FlushAlerts 0 m now db = .ok db'
        ∧ db'.alerts.Perm ((sortByCreatedAt db.alerts).drop
            (((db.alerts.length : Int) - m).toNat))
        ∧ (db'.alerts.length : Int) = m
        ∧ ∀ a ∈ db.alerts, a ∉ db'.alerts →
            ∀ b ∈ db'.alerts, a.createdAt ≤ b.createdAt)
    ∧ ((m ≤ 0 ∨ (db.alerts.length : Int) ≤ m) → FlushAlerts 0 m now db = .ok db) := by
  constructor
  · intro hm hlen
    rw [FlushAlerts_zero_age, if_pos hm, if_pos hlen]
    have hperm : (sortByCreatedAt db.alerts).Perm db.alerts :=
      List.perm_insertionSort createdAtLE db.alerts
    have hsort : List.Sorted createdAtLE (sortByCreatedAt db.alerts) :=
      List.sorted_insertionSort createdAtLE db.alerts
    have hwf' : (db.alerts.map (fun a => a.id)).Nodup := hwf
    have hids : ((sortByCreatedAt db.alerts).map (fun a => a.id)).Nodup :=
      ((hperm.map (fun a => a.id)).symm).nodup hwf'
    set n := (((db.alerts.length : Int) - m).toNat) with hndef
    set sorted := sortByCreatedAt db.alerts with hsorteddef
    have htd : sorted.take n ++ sorted.drop n = sorted := List.take_append_drop n sorted
    have hkey := filter_killed (sorted.take n) (sorted.drop n) (by rw [htd]; exact hids)
    rw [htd] at hkey
    have hdel : (((sorted.take n).foldl DeleteAlertGraph db).alerts).Perm
        (sorted.drop n) := by
      rw [deleteFold_alerts, ← hkey]
      exact (hperm.symm).filter _
    refine ⟨_, rfl, hdel, ?_, ?_⟩
    · have h1 : ((sorted.take n).foldl DeleteAlertGraph db).alerts.length
          = (sorted.drop n).length := hdel.length_eq
      have h2 : (sorted.drop n).length = sorted.length - n := List.length_drop n sorted
      have h3 : sorted.length = db.alerts.length := hperm.length_eq
      omega
    · intro a ha hnot b hb
      have hasorted : a ∈ sorted := hperm.mem_iff.mpr ha
      have hbdrop : b ∈ sorted.drop n := hdel.mem_iff.mp hb
      have hadrop : a ∉ sorted.drop n := fun hcon => hnot (hdel.mem_iff.mpr hcon)
      have hatake : a ∈ sorted.take n := by
        rcases List.mem_append.mp (htd ▸ hasorted) with h | h
        · exact h
        · exact absurd h hadrop
      have hpw := List.pairwise_append.mp (by rw [htd]; exact hsort)
      exact hpw.2.2 a hatake b hbdrop
  · intro hm
    rw [FlushAlerts_zero_age]
    by_cases h1 : 0 < m
    · rw [if_pos h1, if_neg (by omega)]
    · rw [if_neg h1]

/-- C5 witness: five stored alerts (oldest to newest), `MaxItems = 3`:
the flush leaves the three newest; `MaxItems = 0` deletes none. -/
theorem C5_witness :
    (∃ db', FlushAlerts 0 3 0 db5W = .ok db'
      ∧ db'.alerts.Perm ((sortByCreatedAt db5W.alerts).drop
          (((db5W.alerts.length : Int) - 3).toNat))
      ∧ (db'.alerts.length : Int) = 3
      ∧ ∀ a ∈ db5W.alerts, a ∉ db'.alerts →
          ∀ b ∈ db'.alerts, a.createdAt ≤ b.createdAt)
    ∧ FlushAlerts 0 0 0 db5W = .ok db5W :=
  ⟨(C5_flush_count_pass db5W 3 0 (by decide)).1 (by decide) (by decide),
   (C5_flush_count_pass db5W 0 0 (by decide)).2 (Or.inl (by decide))⟩

/-- C7 witness: a non-boolean value fails with `ParseType`; the "false"
predicate on a concrete store matches the alert with no decisions. -/
theorem C7_witness :
    BuildAlertRequestFromFilter 0 [("has_active_decision", ["banana"])] = .err .parseType
    ∧ (evalConds dbOldW (alertRowW 1 0) [.noDecisions] = true
        ↔ ¬∃ d ∈ dbOldW.decisions, d.ownerId = some (alertRowW 1 0).id) :=
  ⟨(C7_has_active_decision 0 dbOldW (alertRowW 1 0) "banana").2.2 (by decide) (by decide)
     (by decide) (by decide) (by decide) (by decide) (by decide) (by decide) (by decide)
     (by decide) (by decide) (by decide),
   (C7_has_active_decision 0 dbOldW (alertRowW 1 0) "banana").2.1.2⟩

/-- C8 witness: `ip=10.0.0.5` and `range=10.0.0.5/32` compile identically
and agree on a concrete store. -/
theorem C8_witness :
    BuildAlertRequestFromFilter 0 [("ip", ["10.0.0.5"])]
      = BuildAlertRequestFromFilter 0 [("range", ["10.0.0.5/32"])]
    ∧ QueryAlertWithFilter 0 [("ip", ["10.0.0.5"])] db5W
      = QueryAlertWithFilter 0 [("range", ["10.0.0.5/32"])] db5W :=
  ⟨(C8_ip_equals_slash32_range "10.0.0.5" (by decide) 0).1,
   (C8_ip_equals_slash32_range "10.0.0.5" (by decide) 0).2 db5W⟩

/-- C9 witness: `ip` with an empty value list panics; a filter with
non-empty values does not. -/
theorem C9_witness :
    BuildAlertRequestFromFilter 0 [("ip", [])] = .panicked
    ∧ BuildAlertRequestFromFilter 0 [("scope", ["ssh"])] ≠ .panicked :=
  ⟨C9_empty_value_list_panics.1 0 "ip" (by decide),
   C9_empty_value_list_panics.2 0 [("scope", ["ssh"])] (by decide)⟩

/-- C10 witness: `range=0.0.0.0/0` compiles to the empty predicate and
queries exactly like the empty filter. -/
theorem C10_witness :
    BuildAlertRequestFromFilter 0 [("range", ["0.0.0.0/0"])] = .ok []
    ∧ QueryAlertWithFilter 0 [("range", ["0.0.0.0/0"])] db5W
        = QueryAlertWithFilter 0 [] db5W :=
  ⟨((C10_zero_start_omits_bounds 0 0 4294967295 "0.0.0.0/0" (by decide)).2 rfl).1,
   ((C10_zero_start_omits_bounds 0 0 4294967295 "0.0.0.0/0" (by decide)).2 rfl).2 db5W⟩

end AlertsDB
